import Mathlib

/-!
Verification of the finance_notifier repository's alert decision engine.

This file shallowly embeds the corridor-based direction state machine
(src/app/core.py `run_once`, src/agent/stock_agent.py `run_agent_once`),
the URL resolver (src/app/news.py `_extract_original_url`), the headline
formatter (src/app/core.py `_format_headlines`), the market-hours check
(src/app/core.py `is_market_hours`, schema A), the state storage
(src/app/state.py), and the advisory send decision
(src/agent/stock_agent.py `agent_summarize_and_decide`).

Python floats are modelled as rationals (ℚ); Python strings as `String`;
Python dicts of JSON data as association lists.  Network calls and regex
scans over fetched HTML bodies are modelled as explicit environment
functions (`ResolveEnv`), so each claim quantifies over every behaviour
of the HTTP layer.
-/

set_option maxRecDepth 8000

namespace FinanceNotifier

/-! ### Generic string helpers (models of Python str operations) -/

/-- Splits a character list at every occurrence of the separator character,
mirroring Python's `str.split` with a one-character separator
(`"".split(sep) == [""]`, separators at the ends produce empty pieces). -/
def splitChar (sep : Char) : List Char → List (List Char)
  | [] => [[]]
  | c :: rest =>
    let r := splitChar sep rest
    if c = sep then [] :: r
    else
      match r with
      | h :: t => (c :: h) :: t
      | [] => [[c]]

/-- Finds the first occurrence of `sep` in a character list and returns the
pieces before and after it (the separator itself removed), or `none` when
`sep` does not occur.  This models Python's `str.split(sep, 1)` /
`str.partition`. -/
def findSplit (sep : List Char) : List Char → Option (List Char × List Char)
  | [] => if sep.isEmpty then some ([], []) else none
  | c :: rest =>
    if sep.isPrefixOf (c :: rest) then some ([], (c :: rest).drop sep.length)
    else
      match findSplit sep rest with
      | some (pre, post) => some (c :: pre, post)
      | none => none

/-- Substring test on character lists (true when `sub` occurs contiguously). -/
def containsSub (sub : List Char) : List Char → Bool
  | [] => sub.isPrefixOf []
  | c :: rest => sub.isPrefixOf (c :: rest) || containsSub sub rest

/-- Python's `sub in s` substring test. -/
def strContains (s sub : String) : Bool := containsSub sub.data s.data

/-- Python's `s.startswith(p)`. -/
def strStartsWith (s p : String) : Bool := p.data.isPrefixOf s.data

/-- Python's `s.strip()` (leading and trailing whitespace removed). -/
def strTrim (s : String) : String :=
  ⟨((s.data.dropWhile Char.isWhitespace).reverse.dropWhile Char.isWhitespace).reverse⟩

/-- Value of a hexadecimal digit character, when it is one. -/
def hexVal (c : Char) : Option Nat :=
  if '0' ≤ c ∧ c ≤ '9' then some (c.toNat - '0'.toNat)
  else if 'a' ≤ c ∧ c ≤ 'f' then some (c.toNat - 'a'.toNat + 10)
  else if 'A' ≤ c ∧ c ≤ 'F' then some (c.toNat - 'A'.toNat + 10)
  else none

/-- Percent-decoding of a character list: `%xy` with two hex digits becomes the
character with code `16*x + y`; malformed escapes are kept verbatim.  This
models `urllib.parse.unquote` for single-byte escape sequences (multi-byte
UTF-8 sequences are not modelled; no claim depends on them). -/
def percentDecodeFuel : Nat → List Char → List Char
  | 0, l => l
  | _, [] => []
  | fuel + 1, c :: rest =>
    if c = '%' then
      match rest with
      | a :: b :: rest2 =>
        match hexVal a, hexVal b with
        | some x, some y => Char.ofNat (16 * x + y) :: percentDecodeFuel fuel rest2
        | _, _ => c :: percentDecodeFuel fuel rest
      | _ => c :: percentDecodeFuel fuel rest
    else c :: percentDecodeFuel fuel rest

/-- Percent-decoding with enough fuel for the whole list. -/
def percentDecode (l : List Char) : List Char := percentDecodeFuel l.length l

/-- Models `urllib.parse.unquote`. -/
def unquote (s : String) : String := ⟨percentDecode s.data⟩

/-- Models `urllib.parse.unquote_plus` (`+` becomes a space, then
percent-decoding), as used by `parse_qs` for values. -/
def unquotePlus (s : String) : String :=
  ⟨percentDecode (s.data.map (fun c => if c = '+' then ' ' else c))⟩

/-! ### URL model (urllib.parse fragment used by src/app/news.py) -/

/-- The components of `urllib.parse.urlparse` that the resolver reads. -/
structure ParsedUrl where
  scheme : String
  netloc : String
  path : String
  query : String
deriving DecidableEq, Repr

/-- Models `urllib.parse.urlparse` restricted to scheme, netloc, path and
query: the scheme is everything before the first `://`, the netloc runs to
the next `/` or `?`, the query follows the first `?`.  Fragments, params and
userinfo are not modelled (no input in this development carries them). -/
def urlparse (u : String) : ParsedUrl :=
  match findSplit "://".data u.data with
  | some (sch, rest) =>
    let netloc := rest.takeWhile (fun c => !(c == '/' || c == '?'))
    let rest2 := rest.drop netloc.length
    match findSplit ['?'] rest2 with
    | some (p, q) => ⟨⟨sch⟩, ⟨netloc⟩, ⟨p⟩, ⟨q⟩⟩
    | none => ⟨⟨sch⟩, ⟨netloc⟩, ⟨rest2⟩, ""⟩
  | none =>
    match findSplit ['?'] u.data with
    | some (p, q) => ⟨"", "", ⟨p⟩, ⟨q⟩⟩
    | none => ⟨"", "", u, ""⟩

/-- Models `urllib.parse.urlunparse` on the four modelled components. -/
def urlunparse (p : ParsedUrl) : String :=
  (if p.scheme ≠ "" then p.scheme ++ "://" ++ p.netloc else p.netloc) ++
    p.path ++ (if p.query ≠ "" then "?" ++ p.query else "")

/-- Embeds `_ensure_https` (src/app/news.py lines 28-33, duplicated in
src/app/core.py lines 47-52): empty stays empty, URLs with an explicit
http/https scheme are unchanged, anything else is prefixed with `https://`
after stripping leading slashes. -/
def ensure_https (u : String) : String :=
  if u = "" then ""
  else if strStartsWith u "http://" || strStartsWith u "https://" then u
  else "https://" ++ ⟨u.data.dropWhile (· == '/')⟩

/-- Models `parse_qs(query).get(key)` followed by `[0]` as the source uses it:
split the query on `&`, keep pieces of the form `name=value` with a nonempty
raw value (parse_qs drops blank values before decoding), decode BOTH the
name and the value with `unquote_plus` as parse_qsl does, and return the
first value whose decoded name equals the key. -/
def parseQsGet (query key : String) : Option String :=
  ((splitChar '&' query.data).filterMap fun seg =>
    match findSplit ['='] seg with
    | some (k, v) =>
      if unquotePlus (⟨k⟩ : String) = key ∧ v ≠ [] then some (unquotePlus ⟨v⟩) else none
    | none => none).head?

/-- True when a `name=value` query segment is matched by the tracking-parameter
regex of `_clean_tracking_params` (src/app/news.py lines 36-50, repeated
inline at lines 159-166): names `ved`, `usg`, `si`, `sca_esv`, `opi`, or a
nonempty name continuing `utm_` or `gws_`. -/
def isTrackingSeg (seg : List Char) : Bool :=
  match findSplit ['='] seg with
  | some (name, _) =>
    let n : String := ⟨name⟩
    n = "ved" || n = "usg" || n = "si" || n = "sca_esv" || n = "opi" ||
      ((strStartsWith n "utm_" || strStartsWith n "gws_") && n.length > 4)
  | none => false

/-- Models the effect of
`re.sub(r'(?:^|&)(ved|usg|utm_[^=]+|si|sca_esv|gws_[^=]+|opi)=[^&]*', '', q)`:
a tracking segment is removed together with the `&` before it; a tracking
segment at the very start is removed alone, leaving its trailing `&`. -/
def stripTrackingQuery (q : String) : String :=
  match splitChar '&' q.data with
  | [] => ""
  | s0 :: rest =>
    ⟨(if isTrackingSeg s0 then [] else s0) ++
      rest.foldr (fun s acc => (if isTrackingSeg s then [] else '&' :: s) ++ acc) []⟩

/-- Embeds `_clean_tracking_params` (src/app/news.py lines 36-50): strip known
tracking parameters from the query; if nothing changed return the URL
unchanged. -/
def _clean_tracking_params (url : String) : String :=
  let p := urlparse url
  let cq := stripTrackingQuery p.query
  if cq ≠ p.query then urlunparse { p with query := cq } else url

/-! ### The URL resolver `_extract_original_url` (src/app/news.py lines 52-168) -/

/-- One HTTP response as the resolver reads it: the redirect history (each
hop contributing its `Location` header or URL), the terminal URL `r.url`,
and the body `r.text`. -/
structure HTTPResponse where
  history : List String
  url : String
  body : String

/-- Behaviour of `requests.get` for one URL: either an exception or a
response. -/
inductive HTTPResult where
  | raises : HTTPResult
  | resp : HTTPResponse → HTTPResult

/-- Environment of external behaviours the resolver consults: the HTTP layer,
and the outcome of each regex scan over a fetched HTML body (canonical link
tag, http-equiv refresh, JS `location.replace/href`, nested `/url?url=`
anchor, and the brute-force first absolute non-Google URL). -/
structure ResolveEnv where
  http : String → HTTPResult
  canonicalScan : String → Option String
  metaRefreshScan : String → Option String
  jsLocationScan : String → Option String
  hrefUrlScan : String → Option String
  bruteForceScan : String → Option String

/-- Embeds `consent_continue` (src/app/news.py lines 72-80): for
`consent.google.*` hosts, the URL-decoded `continue` (or `continue_url`)
query parameter. -/
def consent_continue (u : String) : Option String :=
  let p := urlparse u
  if strContains p.netloc "consent.google." then
    match parseQsGet p.query "continue" with
    | some c => some (ensure_https (unquote c))
    | none =>
      match parseQsGet p.query "continue_url" with
      | some c => some (ensure_https (unquote c))
      | none => none
  else none

/-- Embeds step 1 of `_extract_original_url` (src/app/news.py lines 84-92):
for `news.google.*` hosts with a `url` query parameter, the decoded
parameter value. -/
def googleUrlParam (u : String) : Option String :=
  if strContains (urlparse u).netloc "news.google." then
    (parseQsGet (urlparse u).query "url").map (fun v => ensure_https (unquote v))
  else none

/-- Replaces every occurrence of `pat` by `rep`, spending one unit of fuel per
step; with fuel at least the list length this models Python's
`str.replace`.  Fuel keeps the recursion structural so closed instances
evaluate inside the kernel. -/
def replaceFuel (pat rep : List Char) : Nat → List Char → List Char
  | 0, l => l
  | _, [] => []
  | fuel + 1, c :: rest =>
    if pat ≠ [] ∧ pat.isPrefixOf (c :: rest) then
      rep ++ replaceFuel pat rep fuel ((c :: rest).drop pat.length)
    else c :: replaceFuel pat rep fuel rest

/-- Python's `s.replace(pat, rep)` for a nonempty pattern. -/
def strReplace (s pat rep : String) : String :=
  ⟨replaceFuel pat.data rep.data s.data.length s.data⟩

/-- Embeds step 3 of `_extract_original_url` (src/app/news.py lines 99-106):
on `news.google.*` hosts rewrite the `/rss/articles/` path to `/articles/`. -/
def rssArticlesRewrite (u : String) : String :=
  let p := urlparse u
  if strContains p.netloc "news.google." ∧ strContains p.path "/rss/articles/" then
    urlunparse { p with path := strReplace p.path "/rss/articles/" "/articles/" }
  else u

/-- Scans the redirect history for a consent-continue hop
(src/app/news.py lines 121-125). -/
def firstConsentInHistory : List String → Option String
  | [] => none
  | h :: rest =>
    match consent_continue h with
    | some cc => some cc
    | none => firstConsentInHistory rest

/-- Embeds the `try: requests.get(...)` block of `_extract_original_url`
(src/app/news.py lines 117-156) as an optional refinement: `none` means the
request raised or every in-request strategy failed (falling through to the
tracking-parameter cleanup). -/
def httpPhase (env : ResolveEnv) (u : String) : Option String :=
  match env.http u with
  | .raises => none
  | .resp r =>
    match firstConsentInHistory r.history with
    | some cc => some cc
    | none =>
      if r.url ≠ "" ∧ ¬strContains r.url "google.com" ∧ ¬strContains r.url "google." then
        some (ensure_https r.url)
      else
        match env.canonicalScan r.body with
        | some m => some (ensure_https (unquote m))
        | none =>
          match env.metaRefreshScan r.body with
          | some m => some (ensure_https (unquote m))
          | none =>
            match env.jsLocationScan r.body with
            | some m => some (ensure_https (unquote m))
            | none =>
              match env.hrefUrlScan r.body with
              | some m => some (ensure_https (unquote m))
              | none =>
                match env.bruteForceScan r.body with
                | some cand => some (ensure_https (unquote cand))
                | none => none

/-- Embeds `_extract_original_url` (src/app/news.py lines 52-168): scheme
normalization, direct `?url=` extraction, consent short-circuit, rss-path
rewrite, optional HTTP phase, then cosmetic tracking-parameter stripping. -/
def extract_original_url (env : ResolveEnv) (url0 : String)
    (resolve_redirects : Bool) : String :=
  let url1 := ensure_https url0
  match googleUrlParam url1 with
  | some r => r
  | none =>
    match consent_continue url1 with
    | some cc => cc
    | none =>
      let url2 := rssArticlesRewrite url1
      if !resolve_redirects then url2
      else
        match httpPhase env url2 with
        | some result => result
        | none => _clean_tracking_params url2

/-! ### The resolver with its exception paths made explicit

The definitions above collapse `urllib.parse.urlparse`'s error path: CPython's
`urlsplit` raises `ValueError("Invalid IPv6 URL")` when the netloc contains a
square bracket without its partner.  Inside `_extract_original_url` every
`urlparse` call is wrapped in try/except EXCEPT the one inside the
`consent_continue(url)` call at src/app/news.py line 95, so that ValueError
propagates out of the resolver.  The `E`-suffixed definitions below embed
`_extract_original_url` again with this exception path explicit (an
`Except Unit` result models a raised ValueError); the total model above stays
in use where hypotheses rule the error path out. -/

/-- Models the condition under which `urllib.parse.urlparse` raises
`ValueError("Invalid IPv6 URL")`: the netloc contains `[` without `]` or
`]` without `[`.  (The stricter bracketed-host validation of newer CPython
versions is not modelled; bracket-free netlocs raise in no version.) -/
def urlparseRaises (u : String) : Bool :=
  let nl := (urlparse u).netloc
  (strContains nl "[" && !strContains nl "]") ||
    (strContains nl "]" && !strContains nl "[")

/-- True when the netloc of the parsed URL contains no square bracket at all;
such URLs cannot trigger the urlparse ValueError in any CPython version. -/
def netlocBracketFree (u : String) : Bool :=
  !(strContains (urlparse u).netloc "[" || strContains (urlparse u).netloc "]")

/-- Models `bool` success of an attempted resolution. -/
def resolvesOk (e : Except Unit String) : Bool :=
  match e with
  | .ok _ => true
  | .error _ => false

/-- Step 1 of `_extract_original_url` with its try/except explicit
(src/app/news.py lines 84-92): a urlparse ValueError is caught by the
`except: pass` and behaves as no extraction. -/
def googleUrlParamE (u : String) : Option String :=
  if urlparseRaises u then none else googleUrlParam u

/-- Embeds `consent_continue` (src/app/news.py lines 72-80) with the urlparse
error path explicit: its first statement `urlparse(u)` can raise, and the
caller at line 95 does NOT guard the call, so the error propagates. -/
def consent_continueE (u : String) : Except Unit (Option String) :=
  if urlparseRaises u then .error () else .ok (consent_continue u)

/-- Step 3 of `_extract_original_url` with its try/except explicit
(src/app/news.py lines 99-106): a urlparse ValueError leaves the URL
unchanged. -/
def rssArticlesRewriteE (u : String) : String :=
  if urlparseRaises u then u else rssArticlesRewrite u

/-- Embeds `_clean_tracking_params` with its try/except explicit
(src/app/news.py lines 36-50): a urlparse ValueError returns the URL
unchanged. -/
def _clean_tracking_paramsE (url : String) : String :=
  if urlparseRaises url then url else _clean_tracking_params url

/-- The redirect-history loop (src/app/news.py lines 121-125) with the
per-hop `consent_continue` exception explicit: a hop whose URL fails to
parse raises before later hops are examined; the raise is caught by the
surrounding try at line 155 (surfacing here as `.error`). -/
def firstConsentInHistoryE : List String → Except Unit (Option String)
  | [] => .ok none
  | h :: rest =>
    if urlparseRaises h then .error ()
    else
      match consent_continue h with
      | some cc => .ok (some cc)
      | none => firstConsentInHistoryE rest

/-- The `try: requests.get(...)` block (src/app/news.py lines 117-156) with
per-hop consent exceptions explicit: any exception inside the block —
including a hop's urlparse ValueError — is caught by the `except` at line
155 and falls through to the tracking cleanup (`none` here). -/
def httpPhaseE (env : ResolveEnv) (u : String) : Option String :=
  match env.http u with
  | .raises => none
  | .resp r =>
    match firstConsentInHistoryE r.history with
    | .error _ => none
    | .ok (some cc) => some cc
    | .ok none =>
      if r.url ≠ "" ∧ ¬strContains r.url "google.com" ∧ ¬strContains r.url "google." then
        some (ensure_https r.url)
      else
        match env.canonicalScan r.body with
        | some m => some (ensure_https (unquote m))
        | none =>
          match env.metaRefreshScan r.body with
          | some m => some (ensure_https (unquote m))
          | none =>
            match env.jsLocationScan r.body with
            | some m => some (ensure_https (unquote m))
            | none =>
              match env.hrefUrlScan r.body with
              | some m => some (ensure_https (unquote m))
              | none =>
                match env.bruteForceScan r.body with
                | some cand => some (ensure_https (unquote cand))
                | none => none

/-- Embeds `_extract_original_url` (src/app/news.py lines 52-168) with the
exception paths explicit.  The only way the resolver itself raises is the
unguarded `consent_continue(url)` call at line 95: a scheme-normalized
input whose netloc carries a mismatched square bracket makes that call's
`urlparse` raise ValueError, which propagates to the caller (`.error`). -/
def extract_original_urlE (env : ResolveEnv) (url0 : String)
    (resolve_redirects : Bool) : Except Unit String :=
  let url1 := ensure_https url0
  match googleUrlParamE url1 with
  | some r => .ok r
  | none =>
    match consent_continueE url1 with
    | .error e => .error e
    | .ok (some cc) => .ok cc
    | .ok none =>
      let url2 := rssArticlesRewriteE url1
      if !resolve_redirects then .ok url2
      else
        match httpPhaseE env url2 with
        | some result => .ok result
        | none => .ok (_clean_tracking_paramsE url2)

/-! ### Headline formatting and canonical-URL dedup (src/app/core.py lines 55-101) -/

/-- One headline dict as produced by `news.fetch_headlines` or handed in by a
caller: every field optional, `url` preferred over `link`. -/
structure NewsItem where
  title : Option String
  source : Option String
  url : Option String
  link : Option String

/-- Embeds `_item_url` (src/app/core.py lines 55-57):
`_ensure_https((it.get("url") or it.get("link") or "").strip())`, where
Python `or` skips empty strings. -/
def _item_url (it : NewsItem) : String :=
  ensure_https (strTrim (if (it.url.getD "") ≠ "" then it.url.getD "" else it.link.getD ""))

/-- The canonical URL the formatter dedups by: the resolver applied to the
item's URL with redirects followed (src/app/core.py lines 76-81). -/
def canonOf (env : ResolveEnv) (it : NewsItem) : String :=
  extract_original_url env (_item_url it) true

/-- An item survives the validity check of the formatting loop: nonempty
trimmed title and nonempty URL (src/app/core.py lines 70-74). -/
def validItem (it : NewsItem) : Bool :=
  !(strTrim (it.title.getD "") = "" || _item_url it = "")

/-- First rendered line of a kept headline (src/app/core.py lines 96-97). -/
def renderLine1 (env : ResolveEnv) (it : NewsItem) : String :=
  "• [" ++ strTrim (it.title.getD "") ++ "](" ++ canonOf env it ++ ")" ++
    (if strTrim (it.source.getD "") ≠ "" then " — " ++ strTrim (it.source.getD "") else "")

/-- Second rendered line of a kept headline (src/app/core.py line 98). -/
def renderLine2 (env : ResolveEnv) (it : NewsItem) : String :=
  "   🔗 " ++ canonOf env it

/-- Embeds the loop of `_format_headlines` (src/app/core.py lines 67-98):
walks the items, skips invalid ones, resolves each URL to its canonical
form, drops items whose canonical URL was already seen, and collects the
rendered lines.  Returns the final seen list (one canonical URL per kept
entry, in order) together with the lines. -/
def formatLoop (env : ResolveEnv) (seen : List String) :
    List NewsItem → List String × List String
  | [] => (seen, [])
  | it :: rest =>
    if !validItem it then formatLoop env seen rest
    else
      let orig := canonOf env it
      if orig ∈ seen then formatLoop env seen rest
      else
        let out := formatLoop env (seen ++ [orig]) rest
        (out.1, renderLine1 env it :: renderLine2 env it :: out.2)

/-- Embeds `_format_headlines` (src/app/core.py lines 60-101): empty input
gives the empty block, otherwise the kept lines joined by newlines. -/
def _format_headlines (env : ResolveEnv) (items : List NewsItem) : String :=
  match items with
  | [] => ""
  | _ => String.intercalate "\n" (formatLoop env [] items).2

/-! ### Direction classifier and corridor state machine -/

/-- Embeds `_pct_change` (src/app/core.py lines 26-29) and the identical
`pct_change` (src/agent/stock_agent.py lines 40-43): zero (falsy) open
price yields 0.0, otherwise the percentage change versus open. -/
def _pct_change (open_price last_price : ℚ) : ℚ :=
  if open_price = 0 then 0
  else (last_price - open_price) / open_price * 100

/-- Embeds the direction classification
`"up" if pct >= threshold_pct else "down" if pct <= -threshold_pct else "none"`
(src/app/core.py line 199, src/agent/stock_agent.py line 181). -/
def classify (pct threshold_pct : ℚ) : String :=
  if pct ≥ threshold_pct then "up"
  else if pct ≤ -threshold_pct then "down"
  else "none"

/-- One corridor transition for a single ticker, given the stored direction
`prev` and the freshly classified `direction`: fires (dispatches) exactly
when the new direction is a breakout different from the stored one, resets
to "none" when back inside the corridor, is a no-op otherwise.  Embeds the
branch structure of src/app/core.py lines 201-295. -/
def corridorStep (prev direction : String) : Bool × String :=
  if direction ≠ "none" ∧ direction ≠ prev then (true, direction)
  else if direction = "none" then
    (false, if prev ≠ "none" then "none" else prev)
  else (false, prev)

/-- Runs the corridor machine over a sequence of classified directions,
returning the per-step dispatch flags and the final stored direction. -/
def corridorRun : String → List String → List Bool × String
  | prev, [] => ([], prev)
  | prev, d :: rest =>
    let step := corridorStep prev d
    let out := corridorRun step.2 rest
    (step.1 :: out.1, out.2)

/-! ### Run orchestration (src/app/core.py `run_once`, lines 141-298) -/

/-- The persisted per-ticker state mapping (a JSON object of ticker to
direction string), modelled as an association list in insertion order. -/
abbrev StateMap := List (String × String)

/-- Embeds `state.get(tk, "none")` (src/app/core.py line 198): an absent
ticker reads as "none". -/
def stateGet (st : StateMap) (tk : String) : String :=
  match st.find? (fun p => p.1 == tk) with
  | some p => p.2
  | none => "none"

/-- Embeds the dict assignment `state[tk] = v`: replace the value of an
existing key in place, else append the new key. -/
def stateSet : StateMap → String → String → StateMap
  | [], tk, v => [(tk, v)]
  | (k, w) :: rest, tk, v =>
    if k = tk then (k, v) :: rest else (k, w) :: stateSet rest tk v

/-- Behaviour of `get_open_and_last(tk)`: a pair of open and last price, or a
raised exception. -/
inductive FetchResult where
  | ok : ℚ → ℚ → FetchResult
  | fail : FetchResult

/-- Observable state of one run: the in-memory mapping, the sequence of full
mappings written to disk by `save_state` (in order), and the tickers for
which `notify_ntfy` was invoked (in order). -/
structure RunState where
  state : StateMap
  saves : List StateMap
  sent : List String
deriving DecidableEq, Repr

/-- Embeds the per-ticker body of `run_once` (src/app/core.py lines 181-298):
a fetch exception or a zero open price aborts this ticker only (the
`except` clause leaves everything untouched); otherwise classify the move
and apply the corridor rule, dispatching and then persisting the updated
mapping on a new breakout, persisting the reset when back in the corridor,
and doing nothing otherwise.  News enrichment only decorates the dispatched
message and is not part of this state model. -/
def runOnceTicker (threshold_pct : ℚ) (fetch : String → FetchResult)
    (rs : RunState) (tk : String) : RunState :=
  match fetch tk with
  | .fail => rs
  | .ok open_px last_px =>
    if open_px = 0 then rs
    else
      let pct := _pct_change open_px last_px
      let prev := stateGet rs.state tk
      let direction := classify pct threshold_pct
      if direction ≠ "none" ∧ direction ≠ prev then
        let st' := stateSet rs.state tk direction
        ⟨st', rs.saves ++ [st'], rs.sent ++ [tk]⟩
      else if direction = "none" ∧ prev ≠ "none" then
        let st' := stateSet rs.state tk "none"
        ⟨st', rs.saves ++ [st'], rs.sent⟩
      else rs

/-- Embeds the ticker loop of `run_once` (src/app/core.py lines 179-298),
starting from the loaded state with nothing saved or sent yet. -/
def run_once (threshold_pct : ℚ) (fetch : String → FetchResult)
    (st0 : StateMap) (tickers : List String) : RunState :=
  tickers.foldl (runOnceTicker threshold_pct fetch) ⟨st0, [], []⟩

/-! ### JSON values and the state storage collaborator (src/app/state.py) -/

/-- A parsed JSON value, as returned by `json.loads`. -/
inductive Json where
  | obj : List (String × Json) → Json
  | arr : List Json → Json
  | str : String → Json
  | num : ℚ → Json
  | bool : Bool → Json
  | null : Json

/-- Python truthiness of a JSON value, as applied by `bool(...)`. -/
def jsonTruthy : Json → Bool
  | .obj f => !f.isEmpty
  | .arr l => !l.isEmpty
  | .str s => s ≠ ""
  | .num n => n ≠ 0
  | .bool b => b
  | .null => false

/-- Python's `dict.get(k)` on a parsed JSON object (keys are unique). -/
def dictGet (d : List (String × Json)) (k : String) : Option Json :=
  (d.find? (fun p => p.1 == k)).map (·.2)

/-- What one attempted read of the state file can observe: a missing file, a
read or parse failure, or parsed JSON content. -/
inductive FileRead where
  | missing : FileRead
  | unreadable : FileRead
  | content : Json → FileRead

/-- Embeds `load_state` (src/app/state.py lines 8-18): a missing file, an
unreadable or unparseable file, and parsed JSON that is not an object all
yield the empty mapping; a parsed JSON object is returned verbatim, its
values unvalidated. -/
def load_state : FileRead → List (String × Json)
  | .missing => []
  | .unreadable => []
  | .content j =>
    match j with
    | .obj fields => fields
    | _ => []

/-! ### Advisory send decision (src/agent/stock_agent.py lines 88-143) -/

/-- Behaviour of the optional LLM collaborator for one call: not configured
(`client is None`), raising anywhere in the call or while parsing its
output, or returning parsed JSON. -/
inductive LLMOutcome where
  | absent : LLMOutcome
  | raises : LLMOutcome
  | answers : Json → LLMOutcome

/-- Embeds the `send_alert` component of `agent_summarize_and_decide`
(src/agent/stock_agent.py lines 88-143).  Without a client the decision is
the deterministic `abs(delta_pct) >= threshold_pct` (line 99); with a
client, `bool(data.get("send_alert", abs(delta_pct) >= threshold_pct))`
(line 132) — the magnitude test is only the default for a missing key; an
exception, including `data.get` failing on non-object JSON, falls back to
the deterministic decision (lines 140-143).  The empty-body fallback
(lines 136-138) replaces only title, body and click URL, never the
decision, so text formatting is projected out of this model. -/
def agent_send_decision (delta_pct threshold_pct : ℚ) (o : LLMOutcome) : Bool :=
  match o with
  | .absent => decide (|delta_pct| ≥ threshold_pct)
  | .raises => decide (|delta_pct| ≥ threshold_pct)
  | .answers j =>
    match j with
    | .obj data =>
      match dictGet data "send_alert" with
      | some v => jsonTruthy v
      | none => decide (|delta_pct| ≥ threshold_pct)
    | _ => decide (|delta_pct| ≥ threshold_pct)

/-- Embeds the per-ticker body of `run_agent_once`
(src/agent/stock_agent.py lines 175-244): fetch, compute the delta with
`pct_change` (no zero-open guard, so a zero open price reads as a 0%
change), classify, obtain the agent decision, then apply the corridor rule
with the extra `send` conjunct; per-ticker exceptions leave everything
untouched. -/
def runAgentTicker (threshold_pct : ℚ) (fetch : String → FetchResult)
    (llm : LLMOutcome) (rs : RunState) (tk : String) : RunState :=
  match fetch tk with
  | .fail => rs
  | .ok open_px last_px =>
    let d_pct := _pct_change open_px last_px
    let direction := classify d_pct threshold_pct
    let prev := stateGet rs.state tk
    let send := agent_send_decision d_pct threshold_pct llm
    if direction ≠ "none" ∧ direction ≠ prev ∧ send then
      let st' := stateSet rs.state tk direction
      ⟨st', rs.saves ++ [st'], rs.sent ++ [tk]⟩
    else if direction = "none" ∧ prev ≠ "none" then
      let st' := stateSet rs.state tk "none"
      ⟨st', rs.saves ++ [st'], rs.sent⟩
    else rs

/-! ### Market hours, schema A (src/app/core.py lines 108-129 and the
identical src/agent/stock_agent.py `within_market_hours`, lines 45-60) -/

/-- The local-to-timezone current instant as the check reads it:
`datetime.weekday()` (0 = Monday .. 6 = Sunday) and the wall-clock time. -/
structure LocalNow where
  weekday : Nat
  hour : Nat
  minute : Nat
  second : Nat
  microsecond : Nat
deriving DecidableEq, Repr

/-- A schema-A market-hours configuration with `open`/`close` already split
into hour and minute (the source parses `"HH:MM"` strings; parsing is
mechanical and not modelled). -/
structure MarketCfgA where
  openHH : Nat
  openMM : Nat
  closeHH : Nat
  closeMM : Nat
  active_days : List Nat
  pause_on_closed : Bool
deriving DecidableEq, Repr

/-- Microseconds since local midnight, the resolution at which the source
compares `start <= n <= end` after `replace(second=0, microsecond=0)`. -/
def usOfDay (h m s us : Nat) : Nat := ((h * 60 + m) * 60 + s) * 1000000 + us

/-- Embeds the schema-A branch of `is_market_hours`
(src/app/core.py lines 115-129): `pause_on_closed=False` is always open;
a nonempty `active_days` excludes other weekdays; otherwise the current
instant must satisfy `start <= n <= end` where start and end carry the
configured hour and minute with zero seconds and microseconds. -/
def is_market_hours_A (cfg : MarketCfgA) (n : LocalNow) : Bool :=
  if !cfg.pause_on_closed then true
  else
    let wk := n.weekday + 1
    if cfg.active_days ≠ [] ∧ wk ∉ cfg.active_days then false
    else
      let start := usOfDay cfg.openHH cfg.openMM 0 0
      let stop := usOfDay cfg.closeHH cfg.closeMM 0 0
      let now := usOfDay n.hour n.minute n.second n.microsecond
      decide (start ≤ now ∧ now ≤ stop)

/-! ### Concrete environments used by closed instances -/

/-- An HTTP layer that raises on every request, with every HTML scan empty. -/
def envRaisesAll : ResolveEnv :=
  ⟨fun _ => .raises, fun _ => none, fun _ => none, fun _ => none, fun _ => none, fun _ => none⟩

/-- A redirecting HTTP layer: the first URL hops to a second one, every other
request hops to a third; all HTML scans empty. -/
def envHop : ResolveEnv :=
  ⟨fun u => if u = "https://example.com/a" then .resp ⟨[], "https://other.com/b", ""⟩
            else .resp ⟨[], "https://third.com/c", ""⟩,
   fun _ => none, fun _ => none, fun _ => none, fun _ => none, fun _ => none⟩

/-- A redirect-free HTTP layer: every request terminates at the requested URL
with an empty history and an empty body; all HTML scans empty. -/
def envIdentity : ResolveEnv :=
  ⟨fun u => .resp ⟨[], u, ""⟩,
   fun _ => none, fun _ => none, fun _ => none, fun _ => none, fun _ => none⟩

/-- True when some item of the list is valid and resolves to the canonical
URL `c`. -/
def anyCanon (env : ResolveEnv) (c : String) (items : List NewsItem) : Bool :=
  items.any (fun it => validItem it && (canonOf env it == c))

end FinanceNotifier

namespace FinanceNotifier

/-! ### Helper lemmas -/

theorem isPrefixOf_append_self (l t : List Char) : l.isPrefixOf (l ++ t) = true := by
  induction l with
  | nil => simp [List.isPrefixOf]
  | cons c cs ih => simp [List.isPrefixOf, ih]

theorem strStartsWith_append (p t : String) : strStartsWith (p ++ t) p = true := by
  simp only [strStartsWith, String.data_append]
  exact isPrefixOf_append_self p.data t.data

theorem append_ne_empty_of_left (p t : String) (hp : p ≠ "") : p ++ t ≠ "" := by
  intro h
  apply hp
  have hd : (p ++ t).data = ([] : List Char) := by rw [h]
  rw [String.data_append] at hd
  rcases List.append_eq_nil.mp hd with ⟨h1, _⟩
  cases p
  simp_all

/-- The scheme-normalizer is idempotent: its output is empty or starts with an
explicit scheme, so a second pass changes nothing. -/
theorem ensure_https_idem (u : String) : ensure_https (ensure_https u) = ensure_https u := by
  by_cases h1 : u = ""
  · subst h1; rfl
  · by_cases h2 : strStartsWith u "http://" || strStartsWith u "https://"
    · have hu : ensure_https u = u := by simp [ensure_https, h1, h2]
      rw [hu, ensure_https, if_neg h1, if_pos h2]
    · have hu : ensure_https u = "https://" ++ ⟨u.data.dropWhile (· == '/')⟩ := by
        simp [ensure_https, h1, h2]
      rw [hu]
      have hne : ("https://" ++ (⟨u.data.dropWhile (· == '/')⟩ : String)) ≠ "" :=
        append_ne_empty_of_left _ _ (by decide)
      have hsw : strStartsWith ("https://" ++ ⟨u.data.dropWhile (· == '/')⟩) "https://" = true :=
        strStartsWith_append _ _
      rw [ensure_https, if_neg hne, if_pos (by rw [hsw]; simp)]

/-- Values entering the mapping through the dict-assignment model are either
pre-existing pairs or carry the newly written value. -/
theorem stateSet_mem (st : StateMap) (tk v : String) (p : String × String)
    (hp : p ∈ stateSet st tk v) : p ∈ st ∨ p.2 = v := by
  induction st with
  | nil =>
    simp only [stateSet, List.mem_singleton] at hp
    right; rw [hp]
  | cons q rest ih =>
    obtain ⟨k, w⟩ := q
    by_cases hk : k = tk
    · simp only [stateSet, if_pos hk, List.mem_cons] at hp
      rcases hp with hp | hp
      · right; rw [hp]
      · left; exact List.mem_cons_of_mem _ hp
    · simp only [stateSet, if_neg hk, List.mem_cons] at hp
      rcases hp with hp | hp
      · left; exact hp ▸ List.mem_cons_self _ _
      · rcases ih hp with h | h
        · left; exact List.mem_cons_of_mem _ h
        · right; exact h

/-- The classifier only ever produces the three direction strings. -/
theorem classify_cases (pct t : ℚ) :
    classify pct t = "up" ∨ classify pct t = "down" ∨ classify pct t = "none" := by
  unfold classify
  split_ifs <;> simp

/-! ### Claims -/

/-- C1: Corridor state machine.  A ticker absent from the persisted mapping
reads as "none"; starting there, the classified-direction sequence
up, up, none, up dispatches exactly twice (the first up and the up after the
none reset), up then down dispatches twice (a flip always re-fires),
observing the stored non-none direction again never dispatches, and an
observed "none" resets a non-none stored state without dispatching. -/
theorem C1_corridor_state_machine :
    (∀ st tk, st.find? (fun p => p.1 == tk) = none → stateGet st tk = "none") ∧
    (corridorRun "none" ["up", "up", "none", "up"]).1 = [true, false, false, true] ∧
    (corridorRun "none" ["up", "up", "none", "up"]).1.count true = 2 ∧
    (corridorRun "none" ["up", "down"]).1 = [true, true] ∧
    (corridorRun "none" ["up", "down"]).1.count true = 2 ∧
    (∀ d, d = "up" ∨ d = "down" → corridorStep d d = (false, d)) ∧
    (∀ p, p ≠ "none" → corridorStep p "none" = (false, "none")) := by
  refine ⟨?_, by decide, by decide, by decide, by decide, ?_, ?_⟩
  · intro st tk h
    simp [stateGet, h]
  · rintro d (rfl | rfl) <;> decide
  · intro p hp
    simp [corridorStep, hp]

/-- Witness for C1 at concrete inputs: an unseen ticker reads "none", a
repeated "up" is suppressed, and a "none" observation resets a stored
"down". -/
theorem C1_corridor_state_machine_witness :
    stateGet [("MSFT", "up")] "AAPL" = "none" ∧
    corridorStep "up" "up" = (false, "up") ∧
    corridorStep "down" "none" = (false, "none") :=
  ⟨C1_corridor_state_machine.1 [("MSFT", "up")] "AAPL" (by decide),
   C1_corridor_state_machine.2.2.2.2.2.1 "up" (Or.inl rfl),
   C1_corridor_state_machine.2.2.2.2.2.2 "down" (by decide)⟩

/-- C2 counterexample: with Δ = 2 at threshold 1 the magnitude test holds, yet
a collaborator that explicitly answers send_alert=false makes the composed
decision false — the advisory layer can suppress an alert the deterministic
baseline would send, so it is not a pure "also send" signal on top of the
magnitude safety floor. -/
theorem C2_advisory_floor_counterexample :
    |(2 : ℚ)| ≥ 1 ∧
    agent_send_decision 2 1 (.answers (.obj [("send_alert", .bool false)])) = false :=
  ⟨by decide, by decide⟩

/-- C2 amended: the deterministic magnitude decision survives whenever the
collaborator is absent, raises, returns non-object JSON, or returns an
object without a send_alert key; but when the response object carries a
send_alert key its truthiness is taken verbatim, so an explicit
send_alert=false suppresses the alert even when the magnitude test holds. -/
theorem C2_advisory_floor_amended (Δ t : ℚ) (h : |Δ| ≥ t) :
    agent_send_decision Δ t .absent = true ∧
    agent_send_decision Δ t .raises = true ∧
    (∀ l, agent_send_decision Δ t (.answers (.arr l)) = true) ∧
    (∀ s, agent_send_decision Δ t (.answers (.str s)) = true) ∧
    (∀ data, dictGet data "send_alert" = none →
      agent_send_decision Δ t (.answers (.obj data)) = true) ∧
    (∀ data v, dictGet data "send_alert" = some v →
      agent_send_decision Δ t (.answers (.obj data)) = jsonTruthy v) := by
  have hdec : decide (|Δ| ≥ t) = true := decide_eq_true h
  refine ⟨hdec, hdec, fun l => hdec, fun s => hdec, fun data hd => ?_, fun data v hd => ?_⟩
  · show (match dictGet data "send_alert" with
      | some v => jsonTruthy v
      | none => decide (|Δ| ≥ t)) = true
    rw [hd]
    exact hdec
  · show (match dictGet data "send_alert" with
      | some v => jsonTruthy v
      | none => decide (|Δ| ≥ t)) = jsonTruthy v
    rw [hd]

/-- Witness for C2 amended at Δ = 2, t = 1: no collaborator, and a response
object that omits send_alert, both keep the decision true. -/
theorem C2_advisory_floor_amended_witness :
    agent_send_decision 2 1 .absent = true ∧
    agent_send_decision 2 1 (.answers (.obj [("title", .str "x")])) = true :=
  ⟨(C2_advisory_floor_amended 2 1 (by decide)).1,
   (C2_advisory_floor_amended 2 1 (by decide)).2.2.2.2.1 [("title", .str "x")] rfl⟩

/-- C3: Zero open price.  In core.run_once the zero open raises and the
per-ticker handler catches it: nothing sent, nothing saved, the mapping
untouched (first conjunct), and the loop continues with the next ticker
exactly as if the failing ticker were absent (second conjunct).  The agent
loop run_agent_once, however, has no zero-open guard: pct_change maps the
zero open to a 0% reading, which classifies as "none" and resets a stored
"up" to "none", writing that reset to disk — the code slip the claim
exposes (third conjunct). -/
theorem C3_zero_open_price :
    runOnceTicker 1 (fun _ => .ok 0 5) ⟨[("AAPL", "up")], [], []⟩ "AAPL" =
      ⟨[("AAPL", "up")], [], []⟩ ∧
    run_once 1 (fun tk => if tk = "AAPL" then .ok 0 5 else .ok 100 102)
        [("AAPL", "up")] ["AAPL", "MSFT"] =
      run_once 1 (fun tk => if tk = "AAPL" then .ok 0 5 else .ok 100 102)
        [("AAPL", "up")] ["MSFT"] ∧
    runAgentTicker 1 (fun _ => .ok 0 5) .absent ⟨[("AAPL", "up")], [], []⟩ "AAPL" =
      ⟨[("AAPL", "none")], [[("AAPL", "none")]], []⟩ := by
  refine ⟨by decide, ?_, by decide⟩
  have h1 : runOnceTicker 1 (fun tk => if tk = "AAPL" then .ok 0 5 else .ok 100 102)
      ⟨[("AAPL", "up")], [], []⟩ "AAPL" = ⟨[("AAPL", "up")], [], []⟩ := by decide
  unfold run_once
  rw [List.foldl_cons, h1]

/-- C4: Direction classifier boundaries: for a positive threshold, "up" holds
exactly on Δ ≥ t, "down" exactly on Δ ≤ -t, "none" exactly on |Δ| < t, with
both boundaries inclusive. -/
theorem C4_classify_boundaries (t Δ : ℚ) (ht : 0 < t) :
    (classify Δ t = "up" ↔ Δ ≥ t) ∧
    (classify Δ t = "down" ↔ Δ ≤ -t) ∧
    (classify Δ t = "none" ↔ |Δ| < t) := by
  unfold classify
  split_ifs with h1 h2
  · exact ⟨iff_of_true rfl h1,
      iff_of_false (by decide) (by intro h; linarith),
      iff_of_false (by decide) (not_lt.mpr (le_trans h1 (le_abs_self Δ)))⟩
  · refine ⟨iff_of_false (by decide) h1, iff_of_true rfl h2,
      iff_of_false (by decide) (not_lt.mpr ?_)⟩
    calc t ≤ -Δ := by linarith
      _ ≤ |Δ| := by rw [← abs_neg]; exact le_abs_self (-Δ)
  · exact ⟨iff_of_false (by decide) h1, iff_of_false (by decide) h2,
      iff_of_true rfl (abs_lt.mpr ⟨by linarith, by linarith⟩)⟩

/-- Witness for C4 at t = 1, Δ = 2. -/
theorem C4_classify_boundaries_witness :
    (0 : ℚ) < 1 ∧
    ((classify 2 1 = "up" ↔ (2 : ℚ) ≥ 1) ∧
     (classify 2 1 = "down" ↔ (2 : ℚ) ≤ -1) ∧
     (classify 2 1 = "none" ↔ |(2 : ℚ)| < 1)) :=
  ⟨by decide, C4_classify_boundaries 1 2 (by decide)⟩

/-- C8 counterexample: on an active weekday at exactly the configured close
instant (16:00:00.000000 for open 09:30, close 16:00), the schema-A check
returns true, while the claimed half-open window [open, close) requires
false at the close instant. -/
theorem C8_market_hours_counterexample :
    is_market_hours_A ⟨9, 30, 16, 0, [1, 2, 3, 4, 5], true⟩ ⟨0, 16, 0, 0, 0⟩ = true ∧
    ¬(usOfDay 16 0 0 0 < usOfDay 16 0 0 0) :=
  ⟨by decide, by decide⟩

/-- C8 amended: with pause_on_closed set, a weekday outside a nonempty
active_days set yields false, and on admitted days the check is true exactly
when the local clock lies in the CLOSED interval [open, close] — the source
compares start <= now <= end, so the close instant itself is inside. -/
theorem C8_market_hours_amended (cfg : MarketCfgA) (n : LocalNow)
    (hp : cfg.pause_on_closed = true) :
    (cfg.active_days ≠ [] → (n.weekday + 1) ∉ cfg.active_days →
      is_market_hours_A cfg n = false) ∧
    ((cfg.active_days = [] ∨ (n.weekday + 1) ∈ cfg.active_days) →
      (is_market_hours_A cfg n = true ↔
        (usOfDay cfg.openHH cfg.openMM 0 0 ≤ usOfDay n.hour n.minute n.second n.microsecond ∧
         usOfDay n.hour n.minute n.second n.microsecond ≤ usOfDay cfg.closeHH cfg.closeMM 0 0))) := by
  constructor
  · intro h1 h2
    simp [is_market_hours_A, hp, h1, h2]
  · rintro (h | h) <;> simp [is_market_hours_A, hp, h]

/-- Witness for C8 amended: Saturday is rejected, and a mid-day Monday instant
is accepted via the interval characterization. -/
theorem C8_market_hours_amended_witness :
    is_market_hours_A ⟨9, 30, 16, 0, [1, 2, 3, 4, 5], true⟩ ⟨5, 12, 0, 0, 0⟩ = false ∧
    (is_market_hours_A ⟨9, 30, 16, 0, [1, 2, 3, 4, 5], true⟩ ⟨0, 12, 0, 0, 0⟩ = true ↔
      (usOfDay 9 30 0 0 ≤ usOfDay 12 0 0 0 ∧ usOfDay 12 0 0 0 ≤ usOfDay 16 0 0 0)) :=
  ⟨(C8_market_hours_amended ⟨9, 30, 16, 0, [1, 2, 3, 4, 5], true⟩ ⟨5, 12, 0, 0, 0⟩ rfl).1
      (by decide) (by decide),
   (C8_market_hours_amended ⟨9, 30, 16, 0, [1, 2, 3, 4, 5], true⟩ ⟨0, 12, 0, 0, 0⟩ rfl).2
      (Or.inr (by decide))⟩

/-- C10: Loading the alert state never fails: a missing file, an unreadable or
unparseable file, and parsed JSON that is not an object (a list, a string, a
number, a boolean, null) all give the empty mapping, while a parsed JSON
object is returned verbatim with its values unvalidated. -/
theorem C10_load_state_total :
    load_state .missing = [] ∧
    load_state .unreadable = [] ∧
    (∀ l, load_state (.content (.arr l)) = []) ∧
    (∀ s, load_state (.content (.str s)) = []) ∧
    (∀ q, load_state (.content (.num q)) = []) ∧
    (∀ b, load_state (.content (.bool b)) = []) ∧
    load_state (.content .null) = [] ∧
    (∀ fields, load_state (.content (.obj fields)) = fields) :=
  ⟨rfl, rfl, fun _ => rfl, fun _ => rfl, fun _ => rfl, fun _ => rfl, rfl, fun _ => rfl⟩

/-- Every per-ticker step either changes nothing, or writes one direction value
for this ticker into the mapping and immediately appends that full mapping
to the saves. -/
theorem runOnceTicker_shape (threshold_pct : ℚ) (fetch : String → FetchResult)
    (rs : RunState) (tk : String) :
    runOnceTicker threshold_pct fetch rs tk = rs ∨
    ∃ v snt, (v = "up" ∨ v = "down" ∨ v = "none") ∧
      runOnceTicker threshold_pct fetch rs tk =
        ⟨stateSet rs.state tk v, rs.saves ++ [stateSet rs.state tk v], snt⟩ := by
  cases hf : fetch tk with
  | fail => left; simp only [runOnceTicker, hf]
  | ok o l =>
    simp only [runOnceTicker, hf]
    split_ifs with ho hd1 hd2
    · left; rfl
    · right
      exact ⟨_, _, classify_cases _ _, rfl⟩
    · right
      exact ⟨"none", rs.sent, Or.inr (Or.inr rfl), rfl⟩
    · left; rfl

/-- The run-loop invariant: values written are direction strings, and the
in-memory mapping always equals the last saved mapping (or the initial one
when nothing has been saved yet). -/
theorem runOnce_loop_inv (threshold_pct : ℚ) (fetch : String → FetchResult)
    (st0 : StateMap) (tickers : List String) (rs : RunState)
    (h1 : ∀ p ∈ rs.state, p ∈ st0 ∨ p.2 = "up" ∨ p.2 = "down" ∨ p.2 = "none")
    (h2 : rs.state = (rs.saves.getLast?).getD st0) :
    (∀ p ∈ (tickers.foldl (runOnceTicker threshold_pct fetch) rs).state,
        p ∈ st0 ∨ p.2 = "up" ∨ p.2 = "down" ∨ p.2 = "none") ∧
    (tickers.foldl (runOnceTicker threshold_pct fetch) rs).state =
      (((tickers.foldl (runOnceTicker threshold_pct fetch) rs).saves).getLast?).getD st0 := by
  induction tickers generalizing rs with
  | nil => exact ⟨h1, h2⟩
  | cons tk rest ih =>
    rw [List.foldl_cons]
    rcases runOnceTicker_shape threshold_pct fetch rs tk with hs | ⟨v, snt, hv, hs⟩
    · rw [hs]; exact ih rs h1 h2
    · rw [hs]
      apply ih
      · intro p hp
        rcases stateSet_mem _ _ _ _ hp with h | h
        · exact h1 p h
        · rcases hv with hv | hv | hv <;> rw [h, hv] <;> simp
      · simp [List.getLast?_concat]

/-- C9: State-mapping invariant and immediate persistence.  After a full run,
every pair of the mapping is either a pair of the initially loaded mapping
or carries one of the values "up", "down", "none" (so every value the
orchestrator writes is a direction string); and the in-memory mapping
equals the last mapping saved to storage (the initial mapping when nothing
was saved), so each mutation is persisted before the next ticker is
processed — this holds for every ticker-list prefix since the theorem
quantifies over arbitrary ticker lists. -/
theorem C9_state_values_and_persistence (threshold_pct : ℚ)
    (fetch : String → FetchResult) (st0 : StateMap) (tickers : List String) :
    (∀ p ∈ (run_once threshold_pct fetch st0 tickers).state,
        p ∈ st0 ∨ p.2 = "up" ∨ p.2 = "down" ∨ p.2 = "none") ∧
    (run_once threshold_pct fetch st0 tickers).state =
      (((run_once threshold_pct fetch st0 tickers).saves).getLast?).getD st0 :=
  runOnce_loop_inv threshold_pct fetch st0 tickers ⟨st0, [], []⟩
    (fun _ hp => Or.inl hp) rfl

/-- Witness for C9 on a concrete run: one ticker whose fetch fails. -/
theorem C9_state_values_and_persistence_witness :
    (("AAPL", "up") ∈ ([("AAPL", "up")] : StateMap) ∨
      ("AAPL", "up").2 = "up" ∨ ("AAPL", "up").2 = "down" ∨ ("AAPL", "up").2 = "none") ∧
    (run_once 1 (fun _ => FetchResult.fail) [("AAPL", "up")] ["AAPL"]).state =
      (((run_once 1 (fun _ => FetchResult.fail) [("AAPL", "up")] ["AAPL"]).saves).getLast?).getD
        [("AAPL", "up")] :=
  ⟨(C9_state_values_and_persistence 1 (fun _ => FetchResult.fail) [("AAPL", "up")] ["AAPL"]).1
      ("AAPL", "up") (by decide),
   (C9_state_values_and_persistence 1 (fun _ => FetchResult.fail) [("AAPL", "up")] ["AAPL"]).2⟩

/-- The resolver acts as the identity (after scheme normalization) on URLs
whose host is off the google domain families and whose text is free of the
"google." substring, when the HTTP layer is redirect-free. -/
theorem extract_fixed_of_offgoogle (env : ResolveEnv) (bodyF : String → String)
    (hid : ∀ u, env.http u = .resp ⟨[], u, bodyF u⟩) (y : String)
    (k0 : ensure_https y ≠ "")
    (k1 : strContains (urlparse (ensure_https y)).netloc "news.google." = false)
    (k2 : strContains (urlparse (ensure_https y)).netloc "consent.google." = false)
    (k3 : strContains (ensure_https y) "google.com" = false)
    (k4 : strContains (ensure_https y) "google." = false) :
    extract_original_url env y true = ensure_https y := by
  have hg : googleUrlParam (ensure_https y) = none := by
    simp [googleUrlParam, k1]
  have hc : consent_continue (ensure_https y) = none := by
    simp [consent_continue, k2]
  have hr : rssArticlesRewrite (ensure_https y) = ensure_https y := by
    simp [rssArticlesRewrite, k1]
  have hh : httpPhase env (ensure_https y) = some (ensure_https (ensure_https y)) := by
    simp only [httpPhase, hid (ensure_https y), firstConsentInHistory]
    rw [if_pos ⟨k0, by simp [k3], by simp [k4]⟩]
  simp [extract_original_url, hg, hc, hr, hh, ensure_https_idem]

/-- A bracket-free netloc can never trigger the urlparse ValueError. -/
theorem bracketFree_not_raises (u : String) (h : netlocBracketFree u = true) :
    urlparseRaises u = false := by
  simp only [netlocBracketFree, Bool.not_eq_true', Bool.or_eq_false_iff] at h
  simp [urlparseRaises, h.1, h.2]

/-- When every hop of the redirect history parses cleanly, the explicit-error
history walk agrees with the total one. -/
theorem firstConsentInHistoryE_agrees (hist : List String)
    (h : ∀ u ∈ hist, urlparseRaises u = false) :
    firstConsentInHistoryE hist = .ok (firstConsentInHistory hist) := by
  induction hist with
  | nil => rfl
  | cons u rest ih =>
    have hu := h u (List.mem_cons_self _ _)
    cases hc : consent_continue u with
    | some cc => simp [firstConsentInHistoryE, firstConsentInHistory, hu, hc]
    | none =>
      simp [firstConsentInHistoryE, firstConsentInHistory, hu, hc,
        ih (fun v hv => h v (List.mem_cons_of_mem _ hv))]

/-- When every history hop parses cleanly, the explicit-error HTTP phase
agrees with the total one. -/
theorem httpPhaseE_agrees (env : ResolveEnv) (u : String)
    (h : ∀ r, env.http u = .resp r → ∀ v ∈ r.history, urlparseRaises v = false) :
    httpPhaseE env u = httpPhase env u := by
  cases hr : env.http u with
  | raises => simp only [httpPhaseE, httpPhase, hr]
  | resp r =>
    simp only [httpPhaseE, httpPhase, hr,
      firstConsentInHistoryE_agrees r.history (h r hr)]
    cases firstConsentInHistory r.history <;> rfl

/-- Away from all parse-error paths, the explicit-error resolver returns
exactly the total model's answer. -/
theorem extract_original_urlE_agrees (env : ResolveEnv) (url0 : String) (rr : Bool)
    (h0 : urlparseRaises (ensure_https url0) = false)
    (h0' : urlparseRaises (rssArticlesRewrite (ensure_https url0)) = false)
    (hh : ∀ r, env.http (rssArticlesRewrite (ensure_https url0)) = .resp r →
        ∀ v ∈ r.history, urlparseRaises v = false) :
    extract_original_urlE env url0 rr = .ok (extract_original_url env url0 rr) := by
  have hrw : rssArticlesRewriteE (ensure_https url0)
      = rssArticlesRewrite (ensure_https url0) := by
    simp [rssArticlesRewriteE, h0]
  cases hg : googleUrlParam (ensure_https url0) with
  | some r =>
    simp [extract_original_urlE, extract_original_url, googleUrlParamE, h0, hg]
  | none =>
    cases hc : consent_continue (ensure_https url0) with
    | some cc =>
      simp [extract_original_urlE, extract_original_url, googleUrlParamE,
        consent_continueE, h0, hg, hc]
    | none =>
      cases rr with
      | false =>
        simp [extract_original_urlE, extract_original_url, googleUrlParamE,
          consent_continueE, h0, hg, hc, hrw]
      | true =>
        have hphase := httpPhaseE_agrees env (rssArticlesRewrite (ensure_https url0)) hh
        cases hp : httpPhase env (rssArticlesRewrite (ensure_https url0)) with
        | some res =>
          simp [extract_original_urlE, extract_original_url, googleUrlParamE,
            consent_continueE, h0, hg, hc, hrw, hphase, hp]
        | none =>
          simp [extract_original_urlE, extract_original_url, googleUrlParamE,
            consent_continueE, _clean_tracking_paramsE, h0, h0', hg, hc, hrw, hphase, hp]

/-- C5 counterexample: the claim fails in both of its parts.  First, the
resolver CAN raise: for the input string "[" the normalized URL has a
mismatched square bracket in its netloc, so the unguarded consent-check
urlparse call (src/app/news.py line 95) raises ValueError out of the
resolver.  Second, for the aggregator link news.google.com/rss/articles/abc
with every strategy failing (HTTP raising, all scans empty), the resolver
returns the path-REWRITTEN https://news.google.com/articles/abc rather than
the normalized input, and tracking-parameter stripping cannot account for
the difference since the URL carries no query. -/
theorem C5_resolver_fallback_counterexample :
    extract_original_urlE envRaisesAll "[" true = .error () ∧
    extract_original_urlE envRaisesAll "news.google.com/rss/articles/abc" true =
      .ok "https://news.google.com/articles/abc" ∧
    ensure_https "news.google.com/rss/articles/abc" =
      "https://news.google.com/rss/articles/abc" ∧
    _clean_tracking_params "https://news.google.com/rss/articles/abc" =
      "https://news.google.com/rss/articles/abc" ∧
    "https://news.google.com/articles/abc" ≠ "https://news.google.com/rss/articles/abc" :=
  ⟨rfl, rfl, rfl, rfl, by decide⟩

/-- C5 amended: restricted to inputs whose scheme-normalized netloc is free of
square brackets (so urlparse cannot raise its invalid-IPv6 ValueError), the
resolver returns a string and never raises, for every behaviour of the HTTP
layer; and when the direct url-parameter extraction, the consent
short-circuit and the whole HTTP phase all fail, it returns the input URL
normalized to https — at most with the aggregator /rss/articles/ path
segment rewritten to /articles/ and with known tracking query parameters
stripped (without redirect-following the tracking strip is skipped as
well).  An input with a mismatched bracket in its netloc instead raises
ValueError from the unguarded consent-check urlparse call, as the
counterexample shows. -/
theorem C5_resolver_fallback_amended (env : ResolveEnv) (url0 : String) (rr : Bool)
    (h0 : netlocBracketFree (ensure_https url0) = true)
    (h0' : netlocBracketFree (rssArticlesRewrite (ensure_https url0)) = true) :
    resolvesOk (extract_original_urlE env url0 rr) = true ∧
    (googleUrlParam (ensure_https url0) = none →
      consent_continue (ensure_https url0) = none →
      httpPhaseE env (rssArticlesRewrite (ensure_https url0)) = none →
      extract_original_urlE env url0 rr =
        .ok (if rr then _clean_tracking_params (rssArticlesRewrite (ensure_https url0))
             else rssArticlesRewrite (ensure_https url0))) := by
  have hr0 := bracketFree_not_raises _ h0
  have hr0' := bracketFree_not_raises _ h0'
  have hrw : rssArticlesRewriteE (ensure_https url0)
      = rssArticlesRewrite (ensure_https url0) := by
    simp [rssArticlesRewriteE, hr0]
  constructor
  · cases hg : googleUrlParam (ensure_https url0) with
    | some r => simp [extract_original_urlE, googleUrlParamE, resolvesOk, hr0, hg]
    | none =>
      cases hc : consent_continue (ensure_https url0) with
      | some cc =>
        simp [extract_original_urlE, googleUrlParamE, consent_continueE, resolvesOk,
          hr0, hg, hc]
      | none =>
        cases rr with
        | false =>
          simp [extract_original_urlE, googleUrlParamE, consent_continueE, resolvesOk,
            hr0, hg, hc]
        | true =>
          cases hp : httpPhaseE env (rssArticlesRewriteE (ensure_https url0)) with
          | some res =>
            simp [extract_original_urlE, googleUrlParamE, consent_continueE, resolvesOk,
              hr0, hg, hc, hp]
          | none =>
            simp [extract_original_urlE, googleUrlParamE, consent_continueE, resolvesOk,
              hr0, hg, hc, hp]
  · intro h1 h2 h3
    simp only [extract_original_urlE, googleUrlParamE, consent_continueE,
      _clean_tracking_paramsE, hr0, hrw, hr0', h1, h2, h3]
    cases rr <;> simp

/-- Witness for C5 amended: a plain bracket-free non-aggregator URL with a
raising HTTP layer never raises and resolves to itself (its tracking strip
is the identity here). -/
theorem C5_resolver_fallback_amended_witness :
    resolvesOk (extract_original_urlE envRaisesAll "https://example.com/a" true) = true ∧
    extract_original_urlE envRaisesAll "https://example.com/a" true =
      .ok (if true then
            _clean_tracking_params (rssArticlesRewrite (ensure_https "https://example.com/a"))
          else rssArticlesRewrite (ensure_https "https://example.com/a")) :=
  ⟨(C5_resolver_fallback_amended envRaisesAll "https://example.com/a" true
      (by decide) (by decide)).1,
   (C5_resolver_fallback_amended envRaisesAll "https://example.com/a" true
      (by decide) (by decide)).2 rfl rfl rfl⟩

/-- C6 counterexample: the host example.com is off the google domain family,
yet with a fixed redirecting HTTP layer (a hops to b, everything else hops
to c) resolving twice gives c while resolving once gives b — the claimed
idempotence fails because the resolver re-follows redirects from the
already-canonical URL. -/
theorem C6_resolver_idempotence_counterexample :
    strContains (urlparse (ensure_https "https://example.com/a")).netloc "google." = false ∧
    extract_original_url envHop "https://example.com/a" true = "https://other.com/b" ∧
    extract_original_url envHop (extract_original_url envHop "https://example.com/a" true) true =
      "https://third.com/c" ∧
    extract_original_url envHop (extract_original_url envHop "https://example.com/a" true) true ≠
      extract_original_url envHop "https://example.com/a" true :=
  ⟨by decide, by decide, by decide, by decide⟩

/-- C6 amended: resolving is idempotent for URLs off the aggregator domain
provided the fixed HTTP layer is redirect-free (each request terminates at
the requested URL with no history) and the URL text is free of the
"google." substring — the source tests that substring against the whole
terminal URL, not only its host. -/
theorem C6_resolver_idempotence_amended (env : ResolveEnv) (bodyF : String → String)
    (x : String)
    (hid : ∀ u, env.http u = .resp ⟨[], u, bodyF u⟩)
    (h0 : ensure_https x ≠ "")
    (h1 : strContains (urlparse (ensure_https x)).netloc "news.google." = false)
    (h2 : strContains (urlparse (ensure_https x)).netloc "consent.google." = false)
    (h3 : strContains (ensure_https x) "google.com" = false)
    (h4 : strContains (ensure_https x) "google." = false) :
    extract_original_url env (extract_original_url env x true) true =
      extract_original_url env x true := by
  have hx := extract_fixed_of_offgoogle env bodyF hid x h0 h1 h2 h3 h4
  have hidem := ensure_https_idem x
  have h0' : ensure_https (ensure_https x) ≠ "" := by rw [hidem]; exact h0
  have h1' : strContains (urlparse (ensure_https (ensure_https x))).netloc "news.google."
      = false := by rw [hidem]; exact h1
  have h2' : strContains (urlparse (ensure_https (ensure_https x))).netloc "consent.google."
      = false := by rw [hidem]; exact h2
  have h3' : strContains (ensure_https (ensure_https x)) "google.com" = false := by
    rw [hidem]; exact h3
  have h4' : strContains (ensure_https (ensure_https x)) "google." = false := by
    rw [hidem]; exact h4
  have hy := extract_fixed_of_offgoogle env bodyF hid (ensure_https x) h0' h1' h2' h3' h4'
  rw [hx, hy, hidem]

/-- Witness for C6 amended: the off-google URL resolves to itself under the
redirect-free HTTP layer, so double resolution equals single resolution. -/
theorem C6_resolver_idempotence_amended_witness :
    extract_original_url envIdentity
        (extract_original_url envIdentity "https://example.com/a" true) true =
      extract_original_url envIdentity "https://example.com/a" true :=
  C6_resolver_idempotence_amended envIdentity (fun _ => "") "https://example.com/a"
    (fun _ => rfl) (by decide) (by decide) (by decide) (by decide) (by decide)

/-- Canonical URLs already seen are never re-counted by the formatting loop. -/
theorem formatLoop_count_mem (env : ResolveEnv) (items : List NewsItem) :
    ∀ (seen : List String) (c : String), c ∈ seen →
      ((formatLoop env seen items).1).count c = seen.count c := by
  induction items with
  | nil => intro seen c _; rfl
  | cons it rest ih =>
    intro seen c hc
    cases hv : validItem it with
    | false =>
      rw [show (formatLoop env seen (it :: rest)).1 = (formatLoop env seen rest).1 from by
        simp [formatLoop, hv]]
      exact ih seen c hc
    | true =>
      by_cases ho : canonOf env it ∈ seen
      · rw [show (formatLoop env seen (it :: rest)).1 = (formatLoop env seen rest).1 from by
          simp [formatLoop, hv, ho]]
        exact ih seen c hc
      · have hne : c ≠ canonOf env it := fun h => ho (h ▸ hc)
        rw [show (formatLoop env seen (it :: rest)).1
            = (formatLoop env (seen ++ [canonOf env it]) rest).1 from by
          simp [formatLoop, hv, ho]]
        rw [ih _ c (List.mem_append_left _ hc), List.count_append]
        simp [List.count_cons, hne]

/-- A canonical URL not seen yet ends up counted exactly once when some valid
item resolves to it, and zero times otherwise. -/
theorem formatLoop_count_new (env : ResolveEnv) (items : List NewsItem) :
    ∀ (seen : List String) (c : String), c ∉ seen →
      ((formatLoop env seen items).1).count c =
        (if anyCanon env c items then 1 else 0) := by
  induction items with
  | nil =>
    intro seen c hc
    simp only [formatLoop, anyCanon, List.any_nil, if_false]
    exact List.count_eq_zero.mpr hc
  | cons it rest ih =>
    intro seen c hc
    cases hv : validItem it with
    | false =>
      rw [show (formatLoop env seen (it :: rest)).1 = (formatLoop env seen rest).1 from by
        simp [formatLoop, hv]]
      rw [ih seen c hc]
      simp [anyCanon, hv]
    | true =>
      by_cases ho : canonOf env it ∈ seen
      · have hne : canonOf env it ≠ c := fun h => hc (h ▸ ho)
        rw [show (formatLoop env seen (it :: rest)).1 = (formatLoop env seen rest).1 from by
          simp [formatLoop, hv, ho]]
        rw [ih seen c hc]
        simp [anyCanon, hv, hne]
      · by_cases hoc : canonOf env it = c
        · rw [show (formatLoop env seen (it :: rest)).1
              = (formatLoop env (seen ++ [canonOf env it]) rest).1 from by
            simp [formatLoop, hv, ho]]
          rw [formatLoop_count_mem env rest _ c
            (List.mem_append_right _ (by simp [hoc]))]
          rw [List.count_append, List.count_eq_zero.mpr hc]
          simp [anyCanon, hv, hoc, List.count_cons]
        · have hc' : c ∉ seen ++ [canonOf env it] := by
            intro h
            rcases List.mem_append.mp h with h | h
            · exact hc h
            · exact hoc (List.mem_singleton.mp h).symm
          rw [show (formatLoop env seen (it :: rest)).1
              = (formatLoop env (seen ++ [canonOf env it]) rest).1 from by
            simp [formatLoop, hv, ho]]
          rw [ih _ c hc']
          simp [anyCanon, hv, hoc]

/-- The first valid item resolving to a fresh canonical URL is the one whose
rendered lines appear in the block, regardless of later duplicates. -/
theorem formatLoop_first_kept (env : ResolveEnv) (c : String) (it : NewsItem)
    (post : List NewsItem) (hv : validItem it = true) (hcan : canonOf env it = c) :
    ∀ (pre : List NewsItem) (seen : List String), c ∉ seen →
      (∀ jt ∈ pre, validItem jt = true → canonOf env jt ≠ c) →
      renderLine1 env it ∈ (formatLoop env seen (pre ++ it :: post)).2 ∧
      renderLine2 env it ∈ (formatLoop env seen (pre ++ it :: post)).2 := by
  intro pre
  induction pre with
  | nil =>
    intro seen hcs _
    have ho : canonOf env it ∉ seen := by rw [hcan]; exact hcs
    rw [show formatLoop env seen ([] ++ it :: post)
        = ((formatLoop env (seen ++ [canonOf env it]) post).1,
           renderLine1 env it :: renderLine2 env it
             :: (formatLoop env (seen ++ [canonOf env it]) post).2) from by
      simp [formatLoop, hv, ho]]
    exact ⟨List.mem_cons_self _ _,
      List.mem_cons_of_mem _ (List.mem_cons_self _ _)⟩
  | cons jt pre' ih =>
    intro seen hcs hpre
    have hpre' : ∀ kt ∈ pre', validItem kt = true → canonOf env kt ≠ c :=
      fun kt hk => hpre kt (List.mem_cons_of_mem _ hk)
    cases hjv : validItem jt with
    | false =>
      rw [show formatLoop env seen ((jt :: pre') ++ it :: post)
          = formatLoop env seen (pre' ++ it :: post) from by
        simp [formatLoop, hjv, List.cons_append]]
      exact ih seen hcs hpre'
    | true =>
      by_cases hjo : canonOf env jt ∈ seen
      · rw [show formatLoop env seen ((jt :: pre') ++ it :: post)
            = formatLoop env seen (pre' ++ it :: post) from by
          simp [formatLoop, hjv, hjo, List.cons_append]]
        exact ih seen hcs hpre'
      · have hne : canonOf env jt ≠ c := hpre jt (List.mem_cons_self _ _) hjv
        have hcs' : c ∉ seen ++ [canonOf env jt] := by
          intro h
          rcases List.mem_append.mp h with h | h
          · exact hcs h
          · exact hne (List.mem_singleton.mp h).symm
        rw [show formatLoop env seen ((jt :: pre') ++ it :: post)
            = ((formatLoop env (seen ++ [canonOf env jt]) (pre' ++ it :: post)).1,
               renderLine1 env jt :: renderLine2 env jt
                 :: (formatLoop env (seen ++ [canonOf env jt]) (pre' ++ it :: post)).2) from by
          simp [formatLoop, hjv, hjo, List.cons_append]]
        have hih := ih (seen ++ [canonOf env jt]) hcs' hpre'
        exact ⟨List.mem_cons_of_mem _ (List.mem_cons_of_mem _ hih.1),
               List.mem_cons_of_mem _ (List.mem_cons_of_mem _ hih.2)⟩

/-- C7: Canonical-URL deduplication.  In the formatted headline block, each
canonical URL keeps at most one entry; when some valid item resolves to it,
exactly one entry; the surviving entry is rendered from the FIRST item
resolving to that canonical URL (later duplicates are dropped, regardless
of their raw links); and the emitted block is exactly the kept lines joined
by newlines. -/
theorem C7_canonical_dedup (env : ResolveEnv) (items : List NewsItem) (c : String) :
    ((formatLoop env [] items).1).count c ≤ 1 ∧
    ((∃ it ∈ items, validItem it = true ∧ canonOf env it = c) →
      ((formatLoop env [] items).1).count c = 1) ∧
    (∀ pre it post, items = pre ++ it :: post → validItem it = true →
      canonOf env it = c →
      (∀ jt ∈ pre, validItem jt = true → canonOf env jt ≠ c) →
      renderLine1 env it ∈ (formatLoop env [] items).2 ∧
      renderLine2 env it ∈ (formatLoop env [] items).2) ∧
    (items ≠ [] → _format_headlines env items =
      String.intercalate "\n" (formatLoop env [] items).2) := by
  have hnew := formatLoop_count_new env items [] c (List.not_mem_nil c)
  refine ⟨?_, ?_, ?_, ?_⟩
  · rw [hnew]; split_ifs <;> omega
  · intro hex
    rw [hnew]
    have hany : anyCanon env c items = true := by
      rw [anyCanon, List.any_eq_true]
      obtain ⟨it, hit, hiv, hic⟩ := hex
      exact ⟨it, hit, by simp [hiv, hic]⟩
    simp [hany]
  · intro pre it post hsp hv hcan hpre
    subst hsp
    exact formatLoop_first_kept env c it post hv hcan pre [] (List.not_mem_nil c) hpre
  · intro hne
    cases items with
    | nil => exact absurd rfl hne
    | cons a l => rfl

/-- Witness for C7: two items whose raw links differ (one carries a utm_source
tracking parameter) but resolve to the same canonical URL leave exactly one
entry for it. -/
theorem C7_canonical_dedup_witness :
    ((formatLoop envRaisesAll []
        [⟨some "T1", some "S", some "https://example.com/x?utm_source=1", none⟩,
         ⟨some "T2", none, some "https://example.com/x", none⟩]).1).count
      "https://example.com/x" = 1 :=
  (C7_canonical_dedup envRaisesAll
      [⟨some "T1", some "S", some "https://example.com/x?utm_source=1", none⟩,
       ⟨some "T2", none, some "https://example.com/x", none⟩]
      "https://example.com/x").2.1
    ⟨⟨some "T1", some "S", some "https://example.com/x?utm_source=1", none⟩,
      List.mem_cons_self _ _, by decide, by decide⟩

end FinanceNotifier

